import Mathlib

/-!
Verification of the value-marshalling layer in `src/pydip/src/pydip.h`:
the pybind11 `type_caster` specializations for `dip::DimensionArray`,
`dip::DataType`, `dip::Tensor::Shape`, `dip::Range`, `dip::Image::Sample`,
`dip::Image::Pixel`, and the `ImageOrPixel` resolver.

The dynamic (Python) side is shallowly embedded as the inductive `PyValue`.
Python floats carry a `Rat` payload: none of the verified code performs any
float arithmetic, it only moves scalar payloads between representations, so
an exact carrier is faithful.  Machine integers are modelled as unbounded
`Int`/`Nat`, with the one conversion where wrap-around matters
(`static_cast< dip::sint >( src.step )` in the Range caster) made explicit
through `toSigned64`.
-/

/-- Dynamic (Python) values, as seen through the CPython type checks that
the source performs: `PyBool_Check`, `PYBIND11_LONG_CHECK`, `PyFloat_Check`,
`PyComplex_Check`, `PyUnicode_Check`, `PYBIND11_BYTES_CHECK`,
`PyList_Check`, `PySlice_Check`, `PyNone_Check`, plus tuples (sequences that
are not lists) and buffer-protocol objects (accepted by the external Image
caster). -/
inductive PyValue where
  | pyNone
  | bool (b : Bool)
  | int (i : Int)
  | float (x : Rat)
  | complex (re im : Rat)
  | str (s : String)
  | bytes (s : String)
  | list (xs : List PyValue)
  | tuple (xs : List PyValue)
  | slice (start stop step : PyValue)
  | buffer (data : List Rat)
deriving Repr

/-- `PyBool_Check`: true exactly on Python booleans. -/
def isBoolCheck : PyValue → Bool
  | .bool _ => true
  | _ => false

/-- `PYBIND11_LONG_CHECK` = CPython `PyLong_Check`: true on Python integers
and also on Python booleans, because `bool` is a subtype of `int` in
CPython.  This is why the source checks `PyBool_Check` first. -/
def isLongCheck : PyValue → Bool
  | .bool _ => true
  | .int _ => true
  | _ => false

/-- `PyFloat_Check`: true exactly on Python floats. -/
def isFloatCheck : PyValue → Bool
  | .float _ => true
  | _ => false

/-- `PyComplex_Check`: true exactly on Python complex numbers. -/
def isComplexCheck : PyValue → Bool
  | .complex _ _ => true
  | _ => false

/-- `PyList_Check`: true exactly on Python lists. -/
def isListCheck : PyValue → Bool
  | .list _ => true
  | _ => false

/-- `PySlice_Check`: true exactly on Python slice objects. -/
def isSliceCheck : PyValue → Bool
  | .slice _ _ _ => true
  | _ => false

/-- `PyNone_Check`: true exactly on `None`. -/
def isNoneCheck : PyValue → Bool
  | .pyNone => true
  | _ => false

/-- `PyUnicode_Check` (pybind11 `isinstance< str >`): true exactly on text
strings. -/
def isStrCheck : PyValue → Bool
  | .str _ => true
  | _ => false

/-- `PYBIND11_BYTES_CHECK`: true exactly on byte strings. -/
def isBytesCheck : PyValue → Bool
  | .bytes _ => true
  | _ => false

/-- pybind11 `isinstance< sequence >` = CPython `PySequence_Check`: true on
lists, tuples, text strings and byte strings. -/
def isSequenceCheck : PyValue → Bool
  | .list _ => true
  | .tuple _ => true
  | .str _ => true
  | .bytes _ => true
  | _ => false

/-- Payload extraction behind a successful `PyBool_Check` / boolean cast. -/
def pyAsBool : PyValue → Bool
  | .bool b => b
  | _ => false

/-- Payload extraction behind a successful `PYBIND11_LONG_CHECK`
(`PyLong_AsSsize_t` / `src.cast< dip::sint >()`): Python booleans are
integers 0 and 1. -/
def pyAsInt : PyValue → Int
  | .bool b => if b then 1 else 0
  | .int i => i
  | _ => 0

/-- Element-wise conversion with early failure: the shape of every
`for( auto in : src ) { *it = in.cast< T >(); ++it; }` loop in the source,
where a failing element cast aborts the whole load. -/
def mapOption (f : α → Option β) : List α → Option (List β)
  | [] => some []
  | x :: xs =>
    match f x with
    | none => none
    | some y => (mapOption f xs).map (y :: ·)

/-- Modelled from the spec: pybind11's scalar `cast< bool >` on a dynamic
value (the per-element conversion of the binary Pixel branch), absent from
`src/`.  CPython truthiness through `nb_bool` accepts numbers; text and
container types are rejected as implicit conversions to `bool`. -/
def toBool : PyValue → Option Bool
  | .bool b => some b
  | .pyNone => some false
  | .int i => some (i ≠ 0)
  | .float x => some (x ≠ 0)
  | .complex re im => some (re ≠ 0 ∨ im ≠ 0)
  | _ => none

/-- Modelled from the spec: pybind11's scalar `cast< dip::sint64 >` (the
per-element conversion of the integer Sample/Pixel branches), absent from
`src/`.  Python integers convert exactly; booleans are the integers 0 and 1;
anything else (floats, strings, containers) is not an integer. -/
def toInt64 : PyValue → Option Int
  | .bool b => some (if b then 1 else 0)
  | .int i => some i
  | _ => none

/-- Modelled from the spec: pybind11's scalar `cast< dip::dfloat >` (the
per-element conversion of the float Sample/Pixel branches), absent from
`src/`.  Floats convert directly and integers (booleans included) are
promoted exactly; anything else fails. -/
def toDFloat : PyValue → Option Rat
  | .bool b => some (if b then 1 else 0)
  | .int i => some (i : Rat)
  | .float x => some x
  | _ => none

/-- Modelled from the spec: pybind11's scalar `cast< dip::dcomplex >` (the
per-element conversion of the complex Sample/Pixel branches), absent from
`src/`.  Complex numbers convert directly; real numbers (booleans and
integers included) embed with zero imaginary part; anything else fails. -/
def toDComplex : PyValue → Option (Rat × Rat)
  | .bool b => some (if b then (1 : Rat) else 0, 0)
  | .int i => some ((i : Rat), 0)
  | .float x => some (x, 0)
  | .complex re im => some (re, im)
  | _ => none

/-- Modelled from the spec: the closed `dip::DataType` enumeration (binary,
signed/unsigned integer widths, float widths, complex widths), whose
definition lives in the diplib library outside `src/`. -/
inductive DataType where
  | BIN | UINT8 | SINT8 | UINT16 | SINT16 | UINT32 | SINT32
  | UINT64 | SINT64 | SFLOAT | DFLOAT | SCOMPLEX | DCOMPLEX
deriving DecidableEq, Repr

/-- Every member of the `DataType` enumeration. -/
def DataType.all : List DataType :=
  [.BIN, .UINT8, .SINT8, .UINT16, .SINT16, .UINT32, .SINT32,
   .UINT64, .SINT64, .SFLOAT, .DFLOAT, .SCOMPLEX, .DCOMPLEX]

/-- Modelled from the spec: `dip::DataType::Name()`, the canonical name
string of each enumeration member (outside `src/`). -/
def DataType.name : DataType → String
  | .BIN => "BIN"
  | .UINT8 => "UINT8"
  | .SINT8 => "SINT8"
  | .UINT16 => "UINT16"
  | .SINT16 => "SINT16"
  | .UINT32 => "UINT32"
  | .SINT32 => "SINT32"
  | .UINT64 => "UINT64"
  | .SINT64 => "SINT64"
  | .SFLOAT => "SFLOAT"
  | .DFLOAT => "DFLOAT"
  | .SCOMPLEX => "SCOMPLEX"
  | .DCOMPLEX => "DCOMPLEX"

/-- Modelled from the spec: the `dip::DataType( dip::String )` constructor
(outside `src/`): exact-name lookup over the recognized name set, failing on
unrecognized names. -/
def DataType.ofName (s : String) : Option DataType :=
  DataType.all.find? (fun dt => dt.name = s)

/-- Modelled from the spec: the closed `dip::Tensor::Shape` enumeration of
tensor layout categories (outside `src/`). -/
inductive TensorShape where
  | COL_VECTOR | ROW_VECTOR | COL_MAJOR_MATRIX | ROW_MAJOR_MATRIX
  | DIAGONAL_MATRIX | SYMMETRIC_MATRIX | UPPTRIANG_MATRIX | LOWTRIANG_MATRIX
deriving DecidableEq, Repr

/-- Every member of the `TensorShape` enumeration. -/
def TensorShape.all : List TensorShape :=
  [.COL_VECTOR, .ROW_VECTOR, .COL_MAJOR_MATRIX, .ROW_MAJOR_MATRIX,
   .DIAGONAL_MATRIX, .SYMMETRIC_MATRIX, .UPPTRIANG_MATRIX, .LOWTRIANG_MATRIX]

/-- Modelled from the spec: `dip::Tensor::ShapeToString` (outside `src/`),
the canonical name of each shape kind. -/
def TensorShape.name : TensorShape → String
  | .COL_VECTOR => "column vector"
  | .ROW_VECTOR => "row vector"
  | .COL_MAJOR_MATRIX => "column-major matrix"
  | .ROW_MAJOR_MATRIX => "row-major matrix"
  | .DIAGONAL_MATRIX => "diagonal matrix"
  | .SYMMETRIC_MATRIX => "symmetric matrix"
  | .UPPTRIANG_MATRIX => "upper triangular matrix"
  | .LOWTRIANG_MATRIX => "lower triangular matrix"

/-- Modelled from the spec: `dip::Tensor::ShapeFromString` (outside `src/`):
exact-name lookup, failing on unrecognized names. -/
def TensorShape.ofName (s : String) : Option TensorShape :=
  TensorShape.all.find? (fun sh => sh.name = s)

/-- `type_caster< dip::DataType >::load` (src/pydip/src/pydip.h, lines
103-113): accept only byte strings and text strings and parse the name; any
other dynamic type is a soft failure.  An unrecognized name is a lookup
failure of the enum parser (here `none`, in the code a thrown error). -/
def dataTypeLoad (src : PyValue) : Option DataType :=
  if isBytesCheck src || isStrCheck src then
    match src with
    | .str s => DataType.ofName s
    | .bytes s => DataType.ofName s
    | _ => none
  else none

/-- `type_caster< dip::DataType >::cast` (lines 114-116): the canonical name
string of the member. -/
def dataTypeCast (src : DataType) : PyValue :=
  .str src.name

/-- `type_caster< dip::Tensor::Shape >::load` (lines 125-134). -/
def tensorShapeLoad (src : PyValue) : Option TensorShape :=
  if isBytesCheck src || isStrCheck src then
    match src with
    | .str s => TensorShape.ofName s
    | .bytes s => TensorShape.ofName s
    | _ => none
  else none

/-- `type_caster< dip::Tensor::Shape >::cast` (lines 136-138). -/
def tensorShapeCast (src : TensorShape) : PyValue :=
  .str src.name

/-- The `dip::Range` structure: signed start and stop, with the step stored
as a non-negative magnitude (`dip::uint`). -/
structure Range where
  start : Int
  stop : Int
  step : Nat
deriving DecidableEq, Repr

/-- Modelled from the spec: the single-index `dip::Range( dip::sint )`
constructor (outside `src/`), normalizing an index `i` to
`Range\x7bstart=i, stop=i, step=1\x7d`. -/
def Range.single (i : Int) : Range :=
  ⟨i, i, 1⟩

/-- The wrap-around of `static_cast< dip::sint >` applied to a `dip::uint`
(64-bit two's complement reinterpretation). -/
def toSigned64 (n : Nat) : Int :=
  if n % 2 ^ 64 < 2 ^ 63 then ((n % 2 ^ 64 : Nat) : Int)
  else ((n % 2 ^ 64 : Nat) : Int) - 2 ^ 64

/-- `type_caster< dip::Range >::load` (src/pydip/src/pydip.h, lines
147-191): a slice resolves step first (`None` → 1, integer → itself, other
→ fail), then start (`None` → -1 when the resolved step is negative else 0),
then stop (`None` → 0 when the resolved step is negative else -1), and
finally stores a negative step as its magnitude; a bare integer becomes a
single-index range; everything else is a soft failure. -/
def rangeLoad (src : PyValue) : Option Range :=
  match src with
  | .slice pstart pstop pstep =>
    match (if isNoneCheck pstep then some 1
           else if isLongCheck pstep then some (pyAsInt pstep)
           else none : Option Int) with
    | none => none
    | some step =>
      match (if isNoneCheck pstart then some (if step < 0 then -1 else 0)
             else if isLongCheck pstart then some (pyAsInt pstart)
             else none : Option Int) with
      | none => none
      | some start =>
        match (if isNoneCheck pstop then some (if step < 0 then 0 else -1)
               else if isLongCheck pstop then some (pyAsInt pstop)
               else none : Option Int) with
        | none => none
        | some stop =>
          some ⟨start, stop, (if step < 0 then -step else step).toNat⟩
  | src =>
    if isLongCheck src then some (Range.single (pyAsInt src)) else none

/-- `type_caster< dip::Range >::cast` (lines 192-194): a slice with all
three components set, the stored step magnitude reinterpreted as signed. -/
def rangeCast (src : Range) : PyValue :=
  .slice (.int src.start) (.int src.stop) (.int (toSigned64 src.step))

/-- `dip::Image::Sample`: a tagged scalar holding exactly one of boolean,
signed 64-bit integer, double float, or double complex, the tag being the
`DataType` implied by how it was produced (`DT_BIN` / `DT_SINT64` /
`DT_DFLOAT` / `DT_DCOMPLEX`). -/
inductive Sample where
  | bin (b : Bool)
  | sint (i : Int)
  | dfloat (x : Rat)
  | dcomplex (re im : Rat)
deriving DecidableEq, Repr

/-- `type_caster< dip::Image::Sample >::load` (src/pydip/src/pydip.h, lines
203-227): dispatch on the dynamic type in the exact source order
`PyBool_Check`, `PYBIND11_LONG_CHECK`, `PyFloat_Check`, `PyComplex_Check`,
first match deciding the tag; any other dynamic type is a soft failure. -/
def sampleLoad (src : PyValue) : Option Sample :=
  if isBoolCheck src then
    some (.bin (pyAsBool src))
  else if isLongCheck src then
    some (.sint (pyAsInt src))
  else
    match src with
    | .float x => some (.dfloat x)
    | .complex re im => some (.dcomplex re im)
    | _ => none

/-- `type_caster< dip::Image::Sample >::cast` (lines 228-245): dispatch on
the Sample's own tag: binary → boolean, complex → complex, float → double
float, else (integer) → signed integer. -/
def sampleCast : Sample → PyValue
  | .bin b => .bool b
  | .dcomplex re im => .complex re im
  | .dfloat x => .float x
  | .sint i => .int i

/-- `dip::Image::Pixel`: an ordered sequence of same-tag samples, kept here
as one payload list per tag (`DT_BIN` / `DT_SINT64` / `DT_DFLOAT` /
`DT_DCOMPLEX`). -/
inductive Pixel where
  | bin (bs : List Bool)
  | sint64 (xs : List Int)
  | dfloat (xs : List Rat)
  | dcomplex (xs : List (Rat × Rat))
deriving DecidableEq, Repr

/-- The number of samples in a Pixel. -/
def Pixel.length : Pixel → Nat
  | .bin bs => bs.length
  | .sint64 xs => xs.length
  | .dfloat xs => xs.length
  | .dcomplex xs => xs.length

/-- Modelled from the spec: the `dip::Image::Pixel( dip::Image::Sample )`
constructor (outside `src/`), wrapping a single Sample into a one-element
Pixel of the same tag. -/
def Pixel.ofSample : Sample → Pixel
  | .bin b => .bin [b]
  | .sint i => .sint64 [i]
  | .dfloat x => .dfloat [x]
  | .dcomplex re im => .dcomplex [(re, im)]

/-- `type_caster< dip::Image::Pixel >::load` (src/pydip/src/pydip.h, lines
255-314): an exact list fails when empty, otherwise the first element's
dynamic type — checked in the order `PyBool_Check`, `PYBIND11_LONG_CHECK`,
`PyFloat_Check`, `PyComplex_Check` — commits the tag and every element is
converted through that tag's scalar conversion; a non-list is delegated to
the Sample caster and wrapped as a one-element Pixel. -/
def pixelLoad (src : PyValue) : Option Pixel :=
  match src with
  | .list xs =>
    match xs with
    | [] => none
    | x0 :: _ =>
      if isBoolCheck x0 then
        (mapOption toBool xs).map .bin
      else if isLongCheck x0 then
        (mapOption toInt64 xs).map .sint64
      else if isFloatCheck x0 then
        (mapOption toDFloat xs).map .dfloat
      else if isComplexCheck x0 then
        (mapOption toDComplex xs).map .dcomplex
      else none
  | src =>
    (sampleLoad src).map Pixel.ofSample

/-- `type_caster< dip::Image::Pixel >::cast` (lines 315-340): branch once on
the Pixel's tag and map every element through the corresponding scalar cast,
into a dynamic list. -/
def pixelCast : Pixel → PyValue
  | .bin bs => .list (bs.map (.bool ·))
  | .dcomplex xs => .list (xs.map (fun c => .complex c.1 c.2))
  | .dfloat xs => .list (xs.map (.float ·))
  | .sint64 xs => .list (xs.map (.int ·))

/-- The items a pybind11 `sequence` iterates over: list and tuple elements,
or the characters of a text or byte string as one-character strings. -/
def pySeqItems : PyValue → Option (List PyValue)
  | .list xs => some xs
  | .tuple xs => some xs
  | .str s => some (s.toList.map (fun c => .str (String.mk [c])))
  | .bytes s => some (s.toList.map (fun c => .bytes (String.mk [c])))
  | _ => none

/-- Modelled from the spec: pybind11's generic `list_caster::load` (outside
`src/`), converting a dynamic sequence element-wise with the element type's
own converter, preserving order and length, failing as a whole if any
element fails. -/
def listCasterLoad (conv : PyValue → Option α) (src : PyValue) : Option (List α) :=
  match pySeqItems src with
  | none => none
  | some items => mapOption conv items

/-- `type_caster< dip::DimensionArray< Type >>::load` (src/pydip/src/pydip.h,
lines 81-95): sequences and text strings go through the element-wise list
caster; any other value is converted as a single scalar of the element type
and, on success, becomes a one-element array. -/
def arrayLoad (conv : PyValue → Option α) (src : PyValue) : Option (List α) :=
  if isSequenceCheck src || isStrCheck src then
    listCasterLoad conv src
  else
    (conv src).map ([·])

/-- `dip::Image`, as far as this layer observes it: either the result of the
external Image converter on a buffer-like object, or the single-pixel Image
wrapped around a Pixel by the resolver's fallback. -/
inductive Image where
  | fromBuffer (data : List Rat)
  | ofPixel (p : Pixel)
deriving DecidableEq, Repr

/-- Modelled from the spec: the external `type_caster< dip::Image >` (the
pybind11-generated caster for the exposed Image class together with its
`py::buffer` implicit conversion, outside `src/`), accepting buffer-protocol
objects and nothing this layer's own casters accept. -/
def imageCasterLoad : PyValue → Option Image
  | .buffer data => some (.fromBuffer data)
  | _ => none

/-- `ImageOrPixel` (src/pydip/src/pydip.h, lines 347-357): try the external
Image caster, then the Pixel caster wrapped into a single-pixel Image, and
only when both soft-fail throw a conversion error naming the target type. -/
def imageOrPixel (obj : PyValue) : Except String Image :=
  match imageCasterLoad obj with
  | some img => .ok img
  | none =>
    match pixelLoad obj with
    | some p => .ok (.ofPixel p)
    | none => .error "Cannot convert input to dip::Image"

/-- Encoding of an optional slice component: `none` stands for Python
`None`, `some i` for a Python integer. -/
def optInt : Option Int → PyValue
  | none => .pyNone
  | some i => .int i

theorem mapOption_length (f : α → Option β) :
    ∀ xs ys, mapOption f xs = some ys → ys.length = xs.length := by
  intro xs
  induction xs with
  | nil =>
    intro ys h
    simp [mapOption] at h
    simp [← h]
  | cons x xs ih =>
    intro ys h
    simp only [mapOption] at h
    cases hx : f x with
    | none => rw [hx] at h; simp at h
    | some y =>
      rw [hx] at h
      cases hxs : mapOption f xs with
      | none => rw [hxs] at h; simp at h
      | some zs =>
        rw [hxs] at h
        simp at h
        subst h
        simp [ih zs hxs]

/-- Claim C8: `PixelCaster.load` on an empty dynamic list fails immediately
with a soft failure, constructing no Pixel. -/
theorem pixelLoad_empty_list_fails : pixelLoad (.list []) = none := rfl

/-- Claim C3: `SampleCaster.load` dispatches on the dynamic type in exactly
the order boolean, integer, float, complex, the first match deciding the
tag — a boolean input always yields a binary-tagged Sample even though it
also passes the integer check — and an input matching none of the four
checks is a soft failure. -/
theorem sampleLoad_dispatch_order :
    (∀ b, sampleLoad (.bool b) = some (.bin b) ∧ isLongCheck (.bool b) = true)
    ∧ (∀ i, sampleLoad (.int i) = some (.sint i))
    ∧ (∀ x, sampleLoad (.float x) = some (.dfloat x))
    ∧ (∀ re im, sampleLoad (.complex re im) = some (.dcomplex re im))
    ∧ (∀ v, isBoolCheck v = false → isLongCheck v = false →
        isFloatCheck v = false → isComplexCheck v = false →
        sampleLoad v = none) := by
  refine ⟨fun b => ⟨rfl, rfl⟩, fun i => rfl, fun x => rfl, fun re im => rfl, ?_⟩
  intro v h1 h2 h3 h4
  cases v <;> simp_all [sampleLoad, isBoolCheck, isLongCheck, isFloatCheck,
    isComplexCheck]

theorem sampleLoad_dispatch_order_witness :
    isBoolCheck (.str "x") = false ∧ isLongCheck (.str "x") = false ∧
    isFloatCheck (.str "x") = false ∧ isComplexCheck (.str "x") = false ∧
    sampleLoad (.str "x") = none :=
  ⟨rfl, rfl, rfl, rfl,
   sampleLoad_dispatch_order.2.2.2.2 (.str "x") rfl rfl rfl rfl⟩

/-- Claim C6: casting any Sample to the narrowest dynamic type of its tag
(binary → boolean, complex → complex, float → double float, else integer →
signed integer) and loading the result reconstructs the original Sample. -/
theorem sampleCast_load_roundtrip :
    (∀ s, sampleLoad (sampleCast s) = some s)
    ∧ (∀ b, sampleCast (.bin b) = .bool b)
    ∧ (∀ re im, sampleCast (.dcomplex re im) = .complex re im)
    ∧ (∀ x, sampleCast (.dfloat x) = .float x)
    ∧ (∀ i, sampleCast (.sint i) = .int i) := by
  refine ⟨?_, fun b => rfl, fun re im => rfl, fun x => rfl, fun i => rfl⟩
  intro s
  cases s <;> rfl

/-- Claim C7: for every member of the DataType and ShapeKind enumerations,
casting to the canonical name string and loading that string back through
the enum-string caster is the identity. -/
theorem enum_name_roundtrip :
    (∀ dt : DataType, dataTypeLoad (dataTypeCast dt) = some dt)
    ∧ (∀ sh : TensorShape, tensorShapeLoad (tensorShapeCast sh) = some sh) := by
  constructor
  · intro dt; cases dt <;> rfl
  · intro sh; cases sh <;> rfl

/-- Claim C2: `RangeCaster.load` turns an integer scalar `i` into
`Range\x7bstart=i, stop=i, step=1\x7d`; for a slice it resolves an unset step
to 1, an unset start to -1 when the given step was negative and 0
otherwise, an unset stop to 0 when the given step was negative and -1
otherwise, and stores a negative step as its non-negative magnitude. -/
theorem rangeLoad_normalization :
    (∀ i, rangeLoad (.int i) = some ⟨i, i, 1⟩)
    ∧ (∀ s e t, rangeLoad (.slice (optInt s) (optInt e) (optInt t)) =
        some ⟨s.getD (if t.getD 1 < 0 then -1 else 0),
              e.getD (if t.getD 1 < 0 then 0 else -1),
              (t.getD 1).natAbs⟩)
    ∧ rangeLoad (.slice .pyNone .pyNone .pyNone) = some ⟨0, -1, 1⟩
    ∧ rangeLoad (.slice .pyNone .pyNone (.int (-1))) = some ⟨-1, 0, 1⟩
    ∧ rangeLoad (.slice (.int 2) (.int 5) (.int 1)) = some ⟨2, 5, 1⟩ := by
  refine ⟨fun i => rfl, ?_, by decide, by decide, by decide⟩
  intro s e t
  cases t <;> cases s <;> cases e <;>
    simp [rangeLoad, optInt, isNoneCheck, isLongCheck, pyAsInt,
      Option.getD, Range.mk.injEq] <;>
    omega

/-- Claim C9: for every Range whose step magnitude is representable as a
signed 64-bit integer, the caster round-trips: `cast` produces the slice
`(start, stop, step)` with all three components set, and `load` of that
slice stores back exactly the same start, stop and step. -/
theorem rangeCast_load_roundtrip (r : Range) (h : r.step < 2 ^ 63) :
    rangeCast r = .slice (.int r.start) (.int r.stop) (.int (r.step : Int))
    ∧ rangeLoad (rangeCast r) = some r := by
  obtain ⟨a, b, c⟩ := r
  have hc : c < 2 ^ 63 := h
  have hts : toSigned64 c = (c : Int) := by
    rw [toSigned64, Nat.mod_eq_of_lt (by omega), if_pos (by exact_mod_cast hc)]
  refine ⟨by rw [rangeCast, hts], ?_⟩
  rw [rangeCast, hts]
  simp [rangeLoad, isNoneCheck, isLongCheck, pyAsInt, Range.mk.injEq]
  omega

theorem rangeCast_load_roundtrip_witness :
    (⟨2, 5, 1⟩ : Range).step < 2 ^ 63
    ∧ rangeLoad (rangeCast ⟨2, 5, 1⟩) = some ⟨2, 5, 1⟩ :=
  ⟨by decide, (rangeCast_load_roundtrip ⟨2, 5, 1⟩ (by decide)).2⟩

theorem arrayLoad_seq (conv : PyValue → Option α) (src : PyValue)
    (items : List PyValue) (h : pySeqItems src = some items) :
    arrayLoad conv src = mapOption conv items := by
  cases src <;> simp [pySeqItems] at h <;>
    simp [arrayLoad, isSequenceCheck, isStrCheck, listCasterLoad, pySeqItems, h]

/-- Claim C5: `ArrayCaster.load` converts a dynamic sequence or text string
element-wise in order — the result has the input's length and the load
fails if any element conversion fails — and converts any other input as a
single scalar of the element type, producing a one-element array exactly
when that scalar conversion succeeds. -/
theorem arrayLoad_spec :
    ∀ (α : Type) (conv : PyValue → Option α),
      (∀ src items, pySeqItems src = some items →
        arrayLoad conv src = mapOption conv items)
      ∧ (∀ src items ys, pySeqItems src = some items →
          arrayLoad conv src = some ys → ys.length = items.length)
      ∧ (∀ src, isSequenceCheck src = false → isStrCheck src = false →
          arrayLoad conv src = (conv src).map ([·])) := by
  intro α conv
  refine ⟨fun src items h => arrayLoad_seq conv src items h, ?_, ?_⟩
  · intro src items ys h1 h2
    rw [arrayLoad_seq conv src items h1] at h2
    exact mapOption_length conv items ys h2
  · intro src h1 h2
    cases src <;> simp_all [arrayLoad, isSequenceCheck, isStrCheck]

theorem arrayLoad_spec_witness :
    pySeqItems (.list [.int 3, .int 4]) = some [.int 3, .int 4]
    ∧ arrayLoad toInt64 (.list [.int 3, .int 4]) =
        mapOption toInt64 [.int 3, .int 4]
    ∧ isSequenceCheck (.int 7) = false ∧ isStrCheck (.int 7) = false
    ∧ arrayLoad toInt64 (.int 7) = (toInt64 (.int 7)).map ([·]) :=
  ⟨rfl, (arrayLoad_spec Int toInt64).1 _ _ rfl, rfl, rfl,
   (arrayLoad_spec Int toInt64).2.2 _ rfl rfl⟩

/-- Claim C1: on a non-empty dynamic list, `PixelCaster.load` selects the
uniform tag from the first element's dynamic type alone in the priority
order boolean, integer, float, complex, converts every element (the first
included) through that tag's scalar conversion in order, produces a Pixel
whose length equals the list's length, fails as a whole when any element
cannot convert to the chosen tag, and in particular fails on
`[1, "x", 3]`. -/
theorem pixelLoad_list_firstelement :
    (∀ x0 rest, isBoolCheck x0 = true →
      pixelLoad (.list (x0 :: rest)) =
        (mapOption toBool (x0 :: rest)).map Pixel.bin)
    ∧ (∀ x0 rest, isBoolCheck x0 = false → isLongCheck x0 = true →
        pixelLoad (.list (x0 :: rest)) =
          (mapOption toInt64 (x0 :: rest)).map Pixel.sint64)
    ∧ (∀ x0 rest, isBoolCheck x0 = false → isLongCheck x0 = false →
        isFloatCheck x0 = true →
        pixelLoad (.list (x0 :: rest)) =
          (mapOption toDFloat (x0 :: rest)).map Pixel.dfloat)
    ∧ (∀ x0 rest, isBoolCheck x0 = false → isLongCheck x0 = false →
        isFloatCheck x0 = false → isComplexCheck x0 = true →
        pixelLoad (.list (x0 :: rest)) =
          (mapOption toDComplex (x0 :: rest)).map Pixel.dcomplex)
    ∧ (∀ xs p, pixelLoad (.list xs) = some p → Pixel.length p = xs.length)
    ∧ pixelLoad (.list [.int 1, .str "x", .int 3]) = none := by
  refine ⟨?_, ?_, ?_, ?_, ?_, rfl⟩
  · intro x0 rest h1
    simp [pixelLoad, h1]
  · intro x0 rest h1 h2
    simp [pixelLoad, h1, h2]
  · intro x0 rest h1 h2 h3
    simp [pixelLoad, h1, h2, h3]
  · intro x0 rest h1 h2 h3 h4
    simp [pixelLoad, h1, h2, h3, h4]
  · intro xs p hp
    cases xs with
    | nil => simp [pixelLoad] at hp
    | cons x0 rest =>
      simp only [pixelLoad] at hp
      split_ifs at hp <;>
        (rcases Option.map_eq_some'.mp hp with ⟨l, hl, hpl⟩
         subst hpl
         simpa [Pixel.length] using mapOption_length _ _ _ hl)

theorem pixelLoad_list_firstelement_witness :
    isBoolCheck (.bool true) = true
    ∧ pixelLoad (.list [.bool true, .int 0]) =
        (mapOption toBool [.bool true, .int 0]).map Pixel.bin
    ∧ isBoolCheck (.int 1) = false ∧ isLongCheck (.int 1) = true
    ∧ pixelLoad (.list [.int 1, .int 2]) =
        (mapOption toInt64 [.int 1, .int 2]).map Pixel.sint64
    ∧ pixelLoad (.list [.float 1, .int 2, .int 3]) =
        (mapOption toDFloat [.float 1, .int 2, .int 3]).map Pixel.dfloat
    ∧ Pixel.length (Pixel.sint64 [1, 2]) = 2 :=
  ⟨rfl, pixelLoad_list_firstelement.1 _ _ rfl, rfl, rfl,
   pixelLoad_list_firstelement.2.1 _ _ rfl rfl,
   pixelLoad_list_firstelement.2.2.1 _ _ rfl rfl rfl,
   pixelLoad_list_firstelement.2.2.2.2.1 [.int 1, .int 2]
     (Pixel.sint64 [1, 2]) rfl⟩

/-- Claim C10: `PixelCaster.load` takes the multi-element path only for
exact dynamic lists; any non-list input is delegated to the scalar Sample
caster, so a tuple of two integers soft-fails while a bare scalar succeeds
as a one-element Pixel of the same tag. -/
theorem pixelLoad_nonlist_delegates :
    (∀ src, isListCheck src = false →
      pixelLoad src = (sampleLoad src).map Pixel.ofSample)
    ∧ pixelLoad (.tuple [.int 1, .int 2]) = none
    ∧ pixelLoad (.int 5) = some (.sint64 [5]) := by
  refine ⟨?_, rfl, rfl⟩
  intro src h
  cases src <;> simp_all [pixelLoad, isListCheck]

theorem pixelLoad_nonlist_delegates_witness :
    isListCheck (.tuple [.int 1, .int 2]) = false
    ∧ pixelLoad (.tuple [.int 1, .int 2]) =
        (sampleLoad (.tuple [.int 1, .int 2])).map Pixel.ofSample :=
  ⟨rfl, pixelLoad_nonlist_delegates.1 _ rfl⟩

/-- Claim C4: `ImageOrPixel` first tries the external Image converter and
returns its result directly on success; otherwise it tries the Pixel caster
and wraps a success into a single-pixel Image — so resolving the integer 5
yields a single-pixel Image holding the integer-tagged sample 5 — and only
when both soft-fail does it raise the conversion error naming the Image
target type. -/
theorem imageOrPixel_fallback :
    (∀ obj img, imageCasterLoad obj = some img → imageOrPixel obj = .ok img)
    ∧ (∀ obj p, imageCasterLoad obj = none → pixelLoad obj = some p →
        imageOrPixel obj = .ok (.ofPixel p))
    ∧ imageOrPixel (.int 5) = .ok (.ofPixel (.sint64 [5]))
    ∧ (∀ obj, imageCasterLoad obj = none → pixelLoad obj = none →
        imageOrPixel obj = .error "Cannot convert input to dip::Image") := by
  refine ⟨?_, ?_, rfl, ?_⟩
  · intro obj img h
    simp [imageOrPixel, h]
  · intro obj p h1 h2
    simp [imageOrPixel, h1, h2]
  · intro obj h1 h2
    simp [imageOrPixel, h1, h2]

theorem imageOrPixel_fallback_witness :
    imageCasterLoad (.buffer [1]) = some (.fromBuffer [1])
    ∧ imageOrPixel (.buffer [1]) = .ok (.fromBuffer [1])
    ∧ imageCasterLoad (.str "not-an-image") = none
    ∧ pixelLoad (.str "not-an-image") = none
    ∧ imageOrPixel (.str "not-an-image") =
        .error "Cannot convert input to dip::Image" :=
  ⟨rfl, imageOrPixel_fallback.1 _ _ rfl, rfl, rfl,
   imageOrPixel_fallback.2.2.2 _ rfl rfl⟩
